import Mathlib

/-!
# Verification of remark-lint rules: maximum-heading-length and list-item-spacing

Shallow embedding of `src/packages/remark-lint-maximum-heading-length/index.js`,
which contains two lint rules for mdast (markdown) syntax trees:

* `maximumHeadingLength` (lines 40-50): warns when a heading's plain text is
  longer than a threshold (a number option, defaulting to 60).
* `listItemSpacing` (lines 192-278): warns when the blank-line spacing between
  list items is inconsistent with the inferred looseness of the list.

Source positions carry 1-based line/column numbers; we model an absent (null)
coordinate as 0, matching JavaScript where `null` is falsy and coerces to 0 in
arithmetic and ordering comparisons.
-/

/-- A point in the source document: `{line, column}` as returned by
`unist-util-position`. A null coordinate (absent position) is encoded as 0. -/
structure Point where
  line : Nat
  column : Nat
deriving DecidableEq, Repr

/-- A source position range with a start point and an end point
(`position.start` / `position.end` on a unist node; `end` is a Lean keyword,
so the field is called `endP`). -/
structure Position where
  start : Point
  endP : Point
deriving DecidableEq, Repr

/-- A unist/mdast node: a `type` tag, the string payload fields consulted by
`mdast-util-to-string` (`value`, `alt`, `title`; the empty string encodes an
absent, falsy field), an optional source position, and the child nodes. -/
inductive Node where
  | mk (type : String) (value : String) (alt : String) (title : String)
       (position : Option Position) (children : List Node)

def Node.type : Node → String
  | .mk t _ _ _ _ _ => t

def Node.value : Node → String
  | .mk _ v _ _ _ _ => v

def Node.alt : Node → String
  | .mk _ _ a _ _ _ => a

def Node.title : Node → String
  | .mk _ _ _ t _ _ => t

def Node.position : Node → Option Position
  | .mk _ _ _ _ p _ => p

def Node.children : Node → List Node
  | .mk _ _ _ _ _ c => c

/-- Predicate from unist-util-generated: a node is generated when it has no position or any
of the four coordinates of its position is falsy (null / 0). -/
def generated (n : Node) : Bool :=
  match n.position with
  | none => true
  | some p =>
      p.start.line == 0 || p.start.column == 0 || p.endP.line == 0 || p.endP.column == 0

/-- The `{line: null, column: null}` point `unist-util-position` returns for an
absent node or position, with null encoded as 0. -/
def nullPoint : Point := ⟨0, 0⟩

/-- Accessor start from unist-util-position, the JS `position.start(node)`: the start point of the
node, or the null point when the node or its position is absent. The argument
is an `Option` because the source calls it on possibly-undefined values
(`children[0]`, `items[index + 1]`). -/
def pointStart : Option Node → Point
  | none => nullPoint
  | some n =>
      match n.position with
      | none => nullPoint
      | some p => p.start

/-- Accessor end from unist-util-position, the JS `position.end(node)`: the end point of the node,
or the null point when the node or its position is absent. -/
def pointEnd : Option Node → Point
  | none => nullPoint
  | some n =>
      match n.position with
      | none => nullPoint
      | some p => p.endP

mutual

/-- Flattening from mdast-util-to-string: the flattened plain text of a node, i.e.
`node.value || node.alt || node.title ||` the concatenation over the children
`|| ''` (an image contributes its alt text). -/
def toStr : Node → String
  | .mk _ v a t _ cs =>
      if v ≠ "" then v
      else if a ≠ "" then a
      else if t ≠ "" then t
      else toStrAll cs

/-- The `all(values)` helper of mdast-util-to-string: the concatenation of the
flattened texts of a list of nodes (joined with the empty string). -/
def toStrAll : List Node → String
  | [] => ""
  | c :: cs => toStr c ++ toStrAll cs

end

mutual

/-- Preorder (depth-first, parents first) enumeration of all nodes of a tree,
the order in which `unist-util-visit` applies a visitor. -/
def preorder : Node → List Node
  | .mk ty v a t p cs =>
      Node.mk ty v a t p cs :: preorderAll cs

/-- Preorder enumeration of a forest: each tree in turn, depth first. -/
def preorderAll : List Node → List Node
  | [] => []
  | c :: cs => preorder c ++ preorderAll cs

end

/-- A JavaScript number as far as the rules observe it: a finite integral
number, positive or negative infinity, or NaN. -/
inductive JsNum where
  | int (n : Int)
  | posInf
  | negInf
  | nan
deriving DecidableEq, Repr

/-- The JavaScript values an option slot can hold, as far as the rules observe
them: `undefined`, `null`, a boolean, a number, a string, or an object whose
`checkBlanks` field has the recorded truthiness. -/
inductive JsValue where
  | undefined
  | nullv
  | boolean (b : Bool)
  | number (n : JsNum)
  | str (s : String)
  | object (checkBlanks : Bool)
deriving DecidableEq, Repr

/-- A lint message as recorded on the vfile by `file.message(text, place)`:
the reason string and the start and end points of the reported range. -/
structure Message where
  text : String
  rstart : Point
  rend : Point
deriving DecidableEq, Repr

/-! ## The maximum-heading-length rule (index.js lines 40-50) -/

/-- Line 41: `typeof option === 'number' && !isNaN(option) ? option : 60`.
Note that only NaN is excluded: an infinite number passes the test. -/
def resolveThreshold : JsValue → JsNum
  | .number n => if n = JsNum.nan then JsNum.int 60 else n
  | _ => JsNum.int 60

/-- JavaScript `len > preferred` where `len` is a (nonnegative) string length
and `preferred` a number: comparisons with NaN are false, everything is below
positive infinity and above negative infinity. -/
def jsGtNum (len : Nat) : JsNum → Bool
  | .int m => (len : Int) > m
  | .posInf => false
  | .negInf => true
  | .nan => false

/-- JavaScript number-to-string coercion, as used when the threshold is
interpolated into the message text. -/
def jsNumToString : JsNum → String
  | .int n => toString n
  | .posInf => "Infinity"
  | .negInf => "-Infinity"
  | .nan => "NaN"

/-- The `visitor` closure of `maximumHeadingLength` (lines 45-49), applied to
one heading node: emits one message, anchored at the node's full range, when
the node is not generated and its plain text is longer than the threshold. -/
def headingVisitor (preferred : JsNum) (node : Node) : List Message :=
  if !generated node && jsGtNum (toStr node).length preferred then
    [⟨"Use headings shorter than `" ++ jsNumToString preferred ++ "`",
      pointStart (some node), pointEnd (some node)⟩]
  else []

/-- Rule body `maximumHeadingLength(tree, file, option)` (lines 40-50): resolve the
threshold, visit every heading node, collect the emitted messages. -/
def maximumHeadingLength (tree : Node) (option : JsValue) : List Message :=
  let preferred := resolveThreshold option
  ((preorder tree).filter (fun n => n.type == "heading")).flatMap
    (headingVisitor preferred)

/-! ## The list-item-spacing rule (index.js lines 192-278) -/

/-- Lines 193-197: `Boolean(preferred && typeof preferred === 'object' &&
preferred.checkBlanks)`. Only a truthy object with a truthy `checkBlanks`
field turns blank-line mode on; `null` is typeof object but falsy. -/
def resolveBlanks : JsValue → Bool
  | .object cb => cb
  | _ => false

/-- The `while` loop of `inferBlankLine` (lines 232-241): scan adjacent child
pairs `(child, next)` left to right, returning true at the first pair whose
gap `start(next).line - end(child).line` exceeds 1. -/
def blankLoop : Node → List Node → Bool
  | _, [] => false
  | child, next :: rest =>
      if ((pointStart (some next)).line : Int) - ((pointEnd (some child)).line : Int) > 1 then
        true
      else blankLoop next rest

/-- Predicate `inferBlankLine(item)` (lines 225-244): true when some two adjacent
children of the item are separated by more than one line. An item with no or
one child yields false (the loop body never runs). -/
def inferBlankLine (item : Node) : Bool :=
  match item.children with
  | [] => false
  | child :: rest => blankLoop child rest

/-- Predicate `inferMultiline(item)` (lines 246-251): true when the end line of the last
child exceeds the start line of the first child. With no children both
`content[0]` and `content[content.length - 1]` are undefined, the position
utility returns null coordinates, and `null - null > 0` is false. -/
def inferMultiline (item : Node) : Bool :=
  let content := item.children
  ((pointEnd content.getLast?).line : Int) - ((pointStart content.head?).line : Int) > 0

/-- The active inference predicate (line 218):
`blanks ? inferBlankLine : inferMultiline`. -/
def inferFn (blanks : Bool) : Node → Bool :=
  if blanks then inferBlankLine else inferMultiline

/-- Inference pass `items.forEach(infer)` (lines 211, 217-223): `isTightList` starts true and
is set to false whenever the active predicate holds of an item; a left fold
over the items. -/
def inferAll (blanks : Bool) (items : List Node) : Bool :=
  items.foldl (fun isTightList item => if inferFn blanks item then false else isTightList) true

/-- Check `warn(item, index)` (lines 253-277): ignore the last item; otherwise, when
the item's observed tightness (`end(item).column > indent`) disagrees with the
list's classification, report "Missing new line after list item" for a loose
list and "Extraneous new line after list item" for a tight one, ranging from
the end of the item to the start of the next item. -/
def warnBody (indent : Nat) (isTightList : Bool) (item next : Node) : List Message :=
  let isTight : Bool := decide ((pointEnd (some item)).column > indent)
  if isTight != isTightList then
    if isTightList = false then
      [⟨"Missing new line after list item", pointEnd (some item), pointStart (some next)⟩]
    else
      [⟨"Extraneous new line after list item", pointEnd (some item), pointStart (some next)⟩]
  else []

/-- Looking up the next item (lines 254, 258-260): the last item has no next
item and is ignored; for any other item the body of `warn` runs. -/
def warn (items : List Node) (indent : Nat) (isTightList : Bool)
    (item : Node) (index : Nat) : List Message :=
  match items[index + 1]? with
  | none => []
  | some next => warnBody indent isTightList item next

/-- The `visitor` closure of `listItemSpacing` (lines 201-278), applied to one
list node: return nothing for a generated node; otherwise infer the list's
classification from all items, then check every item boundary. -/
def listVisitor (blanks : Bool) (node : Node) : List Message :=
  if generated node then []
  else
    let items := node.children
    let indent := (pointStart (some node)).column
    let isTightList := inferAll blanks items
    (items.enum.flatMap fun p => warn items indent isTightList p.2 p.1)

/-- Rule body `listItemSpacing(ast, file, preferred)` (lines 192-278): resolve the
`checkBlanks` flag, visit every list node, collect the emitted messages. -/
def listItemSpacing (ast : Node) (preferred : JsValue) : List Message :=
  let blanks := resolveBlanks preferred
  ((preorder ast).filter (fun n => n.type == "list")).flatMap (listVisitor blanks)

/-! ## Specification-side definitions

The following definitions are written from the specification's wording (spec.md
§4.2 and the claims), to be compared with the implementation-side functions
above. -/

/-- Spec-side boundary check, from the claim's words: the boundary between
`item` and `next` is observed tight when the item's end column strictly
exceeds the list node's start column; a "Missing new line after list item"
message is due when the list is classified loose but the boundary is observed
tight, an "Extraneous new line after list item" message when the list is
classified tight but the boundary is observed loose; the range runs from the
end of the current item to the start of the next. -/
def specBoundary (node : Node) (loose : Bool) (item next : Node) : List Message :=
  let observedTight : Bool := decide ((pointEnd (some item)).column > (pointStart (some node)).column)
  if loose && observedTight then
    [⟨"Missing new line after list item", pointEnd (some item), pointStart (some next)⟩]
  else if !loose && !observedTight then
    [⟨"Extraneous new line after list item", pointEnd (some item), pointStart (some next)⟩]
  else []

/-- Spec-side verification phase, from the claim's words: classify the list as
loose exactly when some item satisfies the active predicate, then check every
boundary between an item and the item after it; the boundary after the last
item (absent from `children.zip children.tail`) is never checked. -/
def specListMessages (blanks : Bool) (node : Node) : List Message :=
  let loose := node.children.any (inferFn blanks)
  (node.children.zip node.children.tail).flatMap fun q => specBoundary node loose q.1 q.2

/-! ## State-passing form of the two rules (for the frame property)

The JavaScript rules receive the tree and the vfile and could in principle
mutate the tree through the visited nodes. We model an invocation as a fold
over the visited nodes threading an explicit state, the pair of the tree and
the messages accumulated so far. Each step embeds the corresponding visitor
body, which only reads the node and calls `file.message`: it appends messages
and passes the tree through. -/

def headingStep (preferred : JsNum) (s : Node × List Message) (n : Node) :
    Node × List Message :=
  (s.1, s.2 ++ headingVisitor preferred n)

def maximumHeadingLengthRun (tree : Node) (option : JsValue) : Node × List Message :=
  ((preorder tree).filter (fun n => n.type == "heading")).foldl
    (headingStep (resolveThreshold option)) (tree, [])

def listStep (blanks : Bool) (s : Node × List Message) (n : Node) :
    Node × List Message :=
  (s.1, s.2 ++ listVisitor blanks n)

def listItemSpacingRun (ast : Node) (preferred : JsValue) : Node × List Message :=
  ((preorder ast).filter (fun n => n.type == "list")).foldl
    (listStep (resolveBlanks preferred)) (ast, [])

/-! ## Concrete fixtures

Trees transcribed from the `invalid.md` example in the source's doc comment,
used to instantiate the theorems below at concrete inputs. -/

def mkPos (a b c d : Nat) : Option Position := some ⟨⟨a, b⟩, ⟨c, d⟩⟩

def mkPara (sl sc el ec : Nat) : Node := .mk "paragraph" "" "" "" (mkPos sl sc el ec) []

def mkItem (sl sc el ec : Nat) (cs : List Node) : Node :=
  .mk "listItem" "" "" "" (mkPos sl sc el ec) cs

/-- Lines 3-6 of `invalid.md`: a list whose first item wraps onto a second
line while no blank lines separate the items. -/
def sampleList : Node :=
  .mk "list" "" "" "" (mkPos 3 1 6 11)
    [ mkItem 3 1 4 9 [mkPara 3 5 4 9]
    , mkItem 5 1 5 11 [mkPara 5 5 5 11]
    , mkItem 6 1 6 11 [mkPara 6 5 6 11] ]

/-- A list item wrapping onto a second line (multiline) with a single child,
hence without any internal blank line. -/
def sampleMultilineItem : Node := mkItem 3 1 4 9 [mkPara 3 5 4 9]

/-- A list item with no children. -/
def sampleEmptyItem : Node := mkItem 1 1 1 2 []

/-- A list with exactly one (multiline) item. -/
def sampleSingleItemList : Node :=
  .mk "list" "" "" "" (mkPos 1 1 2 7) [mkItem 1 1 2 7 [mkPara 1 5 2 7]]

/-- A heading with 70 characters of plain text. -/
def sampleLongHeading : Node :=
  .mk "heading" "" "" "" (mkPos 1 1 1 73)
    [Node.mk "text" "aaaaaaaaaabbbbbbbbbbccccccccccddddddddddeeeeeeeeeeffffffffffgggggggggg"
      "" "" (mkPos 1 3 1 73) []]

/-- A heading with no source position and 70 characters of plain text. -/
def sampleGeneratedHeading : Node :=
  .mk "heading" "" "" "" none
    [Node.mk "text" "aaaaaaaaaabbbbbbbbbbccccccccccddddddddddeeeeeeeeeeffffffffffgggggggggg"
      "" "" none []]

/-- A list node without a source position, whose items do have positions. -/
def sampleGeneratedList : Node :=
  .mk "list" "" "" "" none
    [ mkItem 3 1 4 9 [mkPara 3 5 4 9]
    , mkItem 5 1 5 11 [mkPara 5 5 5 11] ]

/-! ## Helper lemmas -/

/-- The inference fold with an arbitrary accumulator: the result is the
accumulator conjoined with "no item satisfies the predicate". -/
theorem foldl_infer_acc (blanks : Bool) (items : List Node) (acc : Bool) :
    items.foldl (fun isTightList item => if inferFn blanks item then false else isTightList) acc
      = (acc && !(items.any (inferFn blanks))) := by
  induction items generalizing acc with
  | nil => simp
  | cons x xs ih =>
      rw [List.foldl_cons, ih]
      cases h : inferFn blanks x <;> simp [h]

/-- The inference phase computes "tight" exactly as the negation of "some item
satisfies the active predicate". -/
theorem inferAll_eq_not_any (blanks : Bool) (items : List Node) :
    inferAll blanks items = !(items.any (inferFn blanks)) := by
  have h := foldl_infer_acc blanks items true
  rw [Bool.true_and] at h
  exact h

/-- Flat-mapping an emit-if over a filtered list is mapping over the doubly
filtered list. -/
theorem filter_flatMap_if {α β : Type} (l : List α) (p q : α → Bool) (f : α → β) :
    (l.filter p).flatMap (fun a => if q a then [f a] else [])
      = (l.filter (fun a => p a && q a)).map f := by
  induction l with
  | nil => rfl
  | cons x xs ih =>
      by_cases hp : p x = true <;> by_cases hq : q x = true <;>
        simp [List.filter_cons, hp, hq, ih]

/-- The body of `warn` agrees with the spec-side boundary check once "loose"
is taken as the negation of "tight". -/
theorem warnBody_eq_specBoundary (node : Node) (tight : Bool) (item next : Node) :
    warnBody ((pointStart (some node)).column) tight item next
      = specBoundary node (!tight) item next := by
  cases h : decide ((pointEnd (some item)).column > (pointStart (some node)).column) <;>
    cases tight <;> simp [warnBody, specBoundary, h]

/-- Unfolding step of the enumeration used by `items.forEach(warn)`. -/
theorem enumFrom_cons_eq {α : Type} (k : Nat) (x : α) (xs : List α) :
    List.enumFrom k (x :: xs) = (k, x) :: List.enumFrom (k + 1) xs := rfl

/-- Folding `warn` over the enumerated items equals folding the boundary body
over the adjacent pairs, for any sublist aligned with the full item list. -/
theorem warn_enumFrom_eq_zip (full : List Node) (indent : Nat) (tight : Bool) :
    ∀ (items : List Node) (k : Nat), (∀ j, full[k + j]? = items[j]?) →
      (List.enumFrom k items).flatMap (fun p => warn full indent tight p.2 p.1)
        = (items.zip items.tail).flatMap (fun q => warnBody indent tight q.1 q.2) := by
  intro items
  induction items with
  | nil => intro k _; rfl
  | cons x xs ih =>
      intro k h
      have hx1 : full[k + 1]? = xs[0]? := by simpa using h 1
      cases xs with
      | nil =>
          simp [enumFrom_cons_eq, warn, hx1]
      | cons y ys =>
          have hnext : full[k + 1]? = some y := by simpa using hx1
          have hshift : ∀ j, full[(k + 1) + j]? = (y :: ys)[j]? := by
            intro j
            have hj := h (j + 1)
            have hk : k + (j + 1) = (k + 1) + j := by omega
            rw [hk] at hj
            simpa using hj
          rw [enumFrom_cons_eq, List.flatMap_cons, ih (k + 1) hshift]
          simp only [List.tail_cons, List.zip_cons_cons, List.flatMap_cons]
          show warn full indent tight x k ++ _ = _
          rw [show warn full indent tight x k = warnBody indent tight x y by
            rw [warn, hnext]]

/-- The scanning loop of `inferBlankLine` tests exactly the adjacent pairs of
the child list it walks. -/
theorem blankLoop_eq_any_zip : ∀ (l : List Node) (c : Node),
    blankLoop c l = ((c :: l).zip l).any (fun q =>
      decide (((pointStart (some q.2)).line : Int) - ((pointEnd (some q.1)).line : Int) > 1)) := by
  intro l
  induction l with
  | nil => intro c; rfl
  | cons n rest ih =>
      intro c
      show (if ((pointStart (some n)).line : Int) - ((pointEnd (some c)).line : Int) > 1
            then true else blankLoop n rest) = _
      rw [List.zip_cons_cons, List.any_cons, ih n]
      by_cases hg : ((pointStart (some n)).line : Int) - ((pointEnd (some c)).line : Int) > 1 <;>
        simp [hg]

/-- A fold whose step preserves the first component of the state preserves it
over any list. -/
theorem foldl_preserves_fst {α β γ : Type} (g : β × γ → α → β × γ)
    (hg : ∀ s a, (g s a).1 = s.1) :
    ∀ (l : List α) (s : β × γ), (l.foldl g s).1 = s.1 := by
  intro l
  induction l with
  | nil => intro s; rfl
  | cons x xs ih => intro s; rw [List.foldl_cons, ih, hg]

/-! ## Claims -/

/-- C1: for every non-generated list node, the verification phase checks each
item except the last: the boundary is observed tight exactly when the item's
end column strictly exceeds the list's start column; a message is emitted at
the boundary exactly when the observed tightness disagrees with the list's
global classification, with text "Missing new line after list item" when the
list is loose and the boundary is tight and "Extraneous new line after list
item" when the list is tight and the boundary is loose, ranging from the end
of the current item to the start of the next item; the boundary after the
last item never produces a message. -/
theorem listVisitor_matches_spec_boundaries (blanks : Bool) (node : Node)
    (h : generated node = false) :
    listVisitor blanks node = specListMessages blanks node := by
  unfold listVisitor specListMessages
  rw [h]
  simp only [Bool.false_eq_true, if_false]
  rw [show node.children.enum = List.enumFrom 0 node.children from rfl]
  rw [warn_enumFrom_eq_zip node.children ((pointStart (some node)).column)
    (inferAll blanks node.children) node.children 0 (fun j => by rw [Nat.zero_add])]
  refine congrArg _ (funext fun q => ?_)
  have hb := warnBody_eq_specBoundary node (inferAll blanks node.children) q.1 q.2
  rw [inferAll_eq_not_any, Bool.not_not] at hb
  rw [← inferAll_eq_not_any] at hb
  exact hb

/-- Witness for C1: the first list of the source's `invalid.md` example. -/
theorem listVisitor_matches_spec_boundaries_witness :
    generated sampleList = false
      ∧ listVisitor false sampleList = specListMessages false sampleList :=
  ⟨rfl, listVisitor_matches_spec_boundaries false sampleList rfl⟩

/-- C2: the inference phase classifies the list as loose (not tight) exactly
when some item satisfies the active predicate, and under the default mode an
item satisfies the predicate exactly when the end line of its last child
strictly exceeds the start line of its first child. -/
theorem list_classification_loose_iff (blanks : Bool) (items : List Node) :
    (inferAll blanks items = false ↔ ∃ item ∈ items, inferFn blanks item = true)
      ∧ ∀ item : Node, inferFn false item = true ↔
          ∃ hd tl, item.children.head? = some hd ∧ item.children.getLast? = some tl ∧
            (pointStart (some hd)).line < (pointEnd (some tl)).line := by
  constructor
  · rw [inferAll_eq_not_any]
    simp [List.any_eq_true]
  · intro item
    show inferMultiline item = true ↔ _
    cases hc : item.children with
    | nil => simp [inferMultiline, hc, pointStart, pointEnd, nullPoint]
    | cons x xs =>
        cases hg : (x :: xs).getLast? with
        | none => simp at hg
        | some y =>
            simp only [inferMultiline, hc, hg, List.head?_cons, Option.some.injEq,
              decide_eq_true_eq]
            constructor
            · intro hlt
              exact ⟨x, y, rfl, rfl, by omega⟩
            · rintro ⟨hd, tl, rfl, rfl, hlt⟩
              omega

/-- C3: the heading rule emits exactly one message per non-generated heading
whose flattened plain text is longer than the resolved threshold, with the
exact interpolated text and anchored at the heading's full source range, and
no message for any other heading. -/
theorem maximumHeadingLength_characterization (tree : Node) (option : JsValue) :
    maximumHeadingLength tree option
      = ((preorder tree).filter (fun n =>
            n.type == "heading"
              && (!generated n && jsGtNum (toStr n).length (resolveThreshold option)))).map
          (fun n =>
            ⟨"Use headings shorter than `" ++ jsNumToString (resolveThreshold option) ++ "`",
              pointStart (some n), pointEnd (some n)⟩) := by
  unfold maximumHeadingLength headingVisitor
  exact filter_flatMap_if _ _ _ _

/-- C4 counterexample: with option positive infinity the code resolves the
threshold to infinity, not 60 — `isNaN` is the only guard — and the
difference is observable: a 70-character heading is not reported under option
infinity, while the claimed threshold 60 would report it. -/
theorem resolveThreshold_infinity_counterexample :
    resolveThreshold (JsValue.number JsNum.posInf) = JsNum.posInf
      ∧ resolveThreshold (JsValue.number JsNum.posInf) ≠ JsNum.int 60
      ∧ headingVisitor (resolveThreshold (JsValue.number JsNum.posInf)) sampleLongHeading = []
      ∧ headingVisitor (resolveThreshold JsValue.undefined) sampleLongHeading
          = [⟨"Use headings shorter than `60`", ⟨1, 1⟩, ⟨1, 73⟩⟩] :=
  ⟨rfl, by decide, rfl, rfl⟩

/-- C4 (amended): the resolved threshold equals the option whenever the option
is a number other than NaN — including positive and negative infinity — and
equals 60 otherwise (absent, non-numeric, or NaN). -/
theorem resolveThreshold_amended (n : JsNum) :
    (n ≠ JsNum.nan → resolveThreshold (JsValue.number n) = n)
      ∧ resolveThreshold (JsValue.number JsNum.nan) = JsNum.int 60
      ∧ ∀ v : JsValue, (∀ m : JsNum, v ≠ JsValue.number m) →
          resolveThreshold v = JsNum.int 60 := by
  refine ⟨?_, rfl, ?_⟩
  · intro hn
    simp [resolveThreshold, hn]
  · intro v hv
    cases v
    case number m => exact absurd rfl (hv m)
    all_goals rfl

/-- Witness for C4 (amended): a finite option is used as given, an absent
option defaults to 60. -/
theorem resolveThreshold_amended_witness :
    resolveThreshold (JsValue.number (JsNum.int 40)) = JsNum.int 40
      ∧ resolveThreshold JsValue.undefined = JsNum.int 60 :=
  ⟨(resolveThreshold_amended (JsNum.int 40)).1 (by decide),
   (resolveThreshold_amended (JsNum.int 40)).2.2 JsValue.undefined
     (fun m h => JsValue.noConfusion h)⟩

/-- C5: a generated node is never reported on: the heading visitor emits
nothing for it regardless of its text length, and the list visitor skips it
regardless of its items. -/
theorem generated_nodes_never_reported (n : Node) (preferred : JsNum) (blanks : Bool)
    (h : generated n = true) :
    headingVisitor preferred n = [] ∧ listVisitor blanks n = [] := by
  constructor
  · simp [headingVisitor, h]
  · simp [listVisitor, h]

/-- Witness for C5: a position-less heading with 70 characters of text and a
position-less list with two positioned items. -/
theorem generated_nodes_never_reported_witness :
    generated sampleGeneratedHeading = true
      ∧ generated sampleGeneratedList = true
      ∧ headingVisitor (JsNum.int 60) sampleGeneratedHeading = []
      ∧ listVisitor false sampleGeneratedList = [] :=
  ⟨rfl, rfl,
    (generated_nodes_never_reported sampleGeneratedHeading (JsNum.int 60) false rfl).1,
    (generated_nodes_never_reported sampleGeneratedList (JsNum.int 60) false rfl).2⟩

/-- C6: in blank-line mode an item forces looseness exactly when some two
adjacent children of it are separated by strictly more than one line; that
predicate is the one active when `checkBlanks` is true; and it genuinely
differs from the multiline predicate: some item list is classified loose
(not tight) under the default predicate but tight under the blank-line one. -/
theorem inferBlankLine_characterization :
    (∀ item : Node, inferBlankLine item
        = (item.children.zip item.children.tail).any (fun q =>
            decide (((pointStart (some q.2)).line : Int)
              - ((pointEnd (some q.1)).line : Int) > 1)))
      ∧ (∀ item : Node, inferFn true item = inferBlankLine item)
      ∧ ∃ items : List Node, inferAll false items = false ∧ inferAll true items = true := by
  refine ⟨?_, fun item => rfl, ⟨[sampleMultilineItem], by decide, by decide⟩⟩
  intro item
  cases hc : item.children with
  | nil => simp [inferBlankLine, hc]
  | cons c rest =>
      simp only [inferBlankLine, hc, List.tail_cons]
      exact blankLoop_eq_any_zip rest c

/-- C7: blank-line mode is active exactly when the option is an object whose
`checkBlanks` field is truthy; every other option value silently falls back
to the behavior of an absent option, never failing. -/
theorem resolveBlanks_characterization :
    (∀ v : JsValue, resolveBlanks v = true ↔ v = JsValue.object true)
      ∧ ∀ (ast : Node) (v : JsValue), resolveBlanks v = false →
          listItemSpacing ast v = listItemSpacing ast JsValue.undefined := by
  constructor
  · intro v
    cases v <;> simp [resolveBlanks]
  · intro ast v hv
    simp only [listItemSpacing, hv]
    rfl

/-- Witness for C7: a string option behaves like no option at all. -/
theorem resolveBlanks_characterization_witness :
    resolveBlanks (JsValue.str "no") = false
      ∧ listItemSpacing sampleList (JsValue.str "no")
          = listItemSpacing sampleList JsValue.undefined :=
  ⟨rfl, resolveBlanks_characterization.2 sampleList (JsValue.str "no") rfl⟩

/-- C8: both rules are read-only with respect to the tree: threading the tree
through an invocation as explicit state returns it unchanged; the only effect
is the emitted messages. -/
theorem rules_preserve_tree (tree : Node) (option : JsValue) :
    (maximumHeadingLengthRun tree option).1 = tree
      ∧ (listItemSpacingRun tree option).1 = tree :=
  ⟨foldl_preserves_fst (headingStep (resolveThreshold option)) (fun _ _ => rfl) _ (tree, []),
   foldl_preserves_fst (listStep (resolveBlanks option)) (fun _ _ => rfl) _ (tree, [])⟩

/-- C9: a non-generated list with exactly one item produces no messages,
whatever the item's content or spacing and whatever the mode: the only item
is the last one, and only boundaries with a following item are checked. -/
theorem single_item_list_no_messages (node : Node) (blanks : Bool)
    (hg : generated node = false) (hlen : node.children.length = 1) :
    listVisitor blanks node = [] := by
  obtain ⟨x, hx⟩ := List.length_eq_one.mp hlen
  simp [listVisitor, hg, hx, List.enum, enumFrom_cons_eq, warn]

/-- Witness for C9: a one-item list whose item is multiline, in both modes. -/
theorem single_item_list_no_messages_witness :
    generated sampleSingleItemList = false
      ∧ sampleSingleItemList.children.length = 1
      ∧ listVisitor false sampleSingleItemList = []
      ∧ listVisitor true sampleSingleItemList = [] :=
  ⟨rfl, rfl, single_item_list_no_messages sampleSingleItemList false rfl rfl,
    single_item_list_no_messages sampleSingleItemList true rfl rfl⟩

/-- C10: on an item with no children both inference predicates are total and
compute false — the position utility returns the null point for the absent
first, last, or indexed child, so an empty item never forces looseness. -/
theorem empty_item_predicates_false (item : Node) (h : item.children = []) :
    inferBlankLine item = false ∧ inferMultiline item = false := by
  constructor
  · simp [inferBlankLine, h]
  · simp [inferMultiline, h, pointStart, pointEnd, nullPoint]

/-- Witness for C10: a concrete childless list item. -/
theorem empty_item_predicates_false_witness :
    sampleEmptyItem.children = []
      ∧ inferBlankLine sampleEmptyItem = false
      ∧ inferMultiline sampleEmptyItem = false :=
  ⟨rfl, (empty_item_predicates_false sampleEmptyItem rfl).1,
    (empty_item_predicates_false sampleEmptyItem rfl).2⟩
